import Mathlib

/-!
Verification of the task-queue core of the Nola transcription service
(`nola/models/tasks.py` over the schema of `nola/models/database.py`).

The SQLite-backed `TaskDatabase` class is shallowly embedded: a database
state is the list of rows of the `transcription_tasks` table together with
the set of ids present in the `files` table; each queue method becomes a
pure function from a state (and an explicit clock value standing for
`datetime.now()`) to a new state plus the method's Python return value.
ISO-8601 timestamp strings compare lexicographically in chronological
order, so timestamps are modelled as integers; SQL REAL columns are
modelled as rationals.
-/

namespace Nola

/-- Status values of `TaskStatus` in `nola/models/tasks.py` (stored as the
corresponding lowercase strings in the `status` column). -/
inductive TaskStatus where
  | pending
  | processing
  | completed
  | failed
  | cancelled
  deriving DecidableEq, Repr

/-- One transcription segment `{start, end, text}` as serialized by
`complete` via `json.dumps`.  Python stores `start`/`end` as floats; the
numeric payload is modelled by integers (`stop` models the JSON key
`"end"`, which is a reserved word in Lean). -/
structure Segment where
  start : Int
  stop : Int
  text : String
  deriving DecidableEq, Repr

/-!
### JSON serialization of segment lists

`complete` stores `json.dumps(segments)` in the `segments` TEXT column and
`get_task` parses it back with `json.loads`.  The following models that
pair for the fixed shape `[{"start": …, "end": …, "text": …}, …]`
produced by the worker, with `json.dumps`'s default separators
(`", "` between items and after each key).  Numbers are the integers of
`Segment`; string escaping covers the quote and backslash (the control and
non-ASCII escapes of `json.dumps` are orthogonal to every property proved
here).  The parser accepts exactly the serializer's output format.
-/

/-- The character `'0' + d` (`d < 10`). -/
def digitChar (d : Nat) : Char := Char.ofNat (48 + d)

/-- Decimal digits of `n`, most significant first; `fuel`-structured so the
kernel can evaluate it (`fuel = n + 1` always suffices). -/
def natCharsAux : Nat → Nat → List Char
  | 0, _ => []
  | fuel + 1, n =>
    if n < 10 then [digitChar n]
    else natCharsAux fuel (n / 10) ++ [digitChar (n % 10)]

def natChars (n : Nat) : List Char := natCharsAux (n + 1) n

/-- Decimal rendering of an integer, as `json.dumps` prints it. -/
def intChars (i : Int) : List Char :=
  if i < 0 then '-' :: natChars i.natAbs else natChars i.natAbs

/-- JSON string-body escaping: quote and backslash get a backslash. -/
def escChars : List Char → List Char
  | [] => []
  | c :: cs =>
    if c = '"' ∨ c = '\\' then '\\' :: c :: escChars cs
    else c :: escChars cs

/-- Read a JSON string body up to its closing quote (consumed); undoes
`escChars`. -/
def unescChars : List Char → Option (List Char × List Char)
  | [] => none
  | c :: cs =>
    if c = '\\' then
      match cs with
      | [] => none
      | d :: ds => (unescChars ds).map fun p => (d :: p.1, p.2)
    else if c = '"' then some ([], cs)
    else (unescChars cs).map fun p => (c :: p.1, p.2)

/-- Split the longest leading run of decimal digits. -/
def takeDigits : List Char → List Char × List Char
  | [] => ([], [])
  | c :: cs =>
    if c.isDigit then
      let p := takeDigits cs
      (c :: p.1, p.2)
    else ([], c :: cs)

/-- Value of a digit run (most significant first). -/
def digitsVal (l : List Char) : Nat :=
  l.foldl (fun a c => 10 * a + (c.toNat - 48)) 0

/-- Read a (possibly negative) decimal integer. -/
def parseIntChars (cs : List Char) : Option (Int × List Char) :=
  match cs with
  | [] => none
  | c :: rest =>
    if c = '-' then
      let p := takeDigits rest
      if p.1 = [] then none else some (-(digitsVal p.1 : Int), p.2)
    else
      let p := takeDigits (c :: rest)
      if p.1 = [] then none else some ((digitsVal p.1 : Int), p.2)

/-- Expect a literal prefix. -/
def dropLit : List Char → List Char → Option (List Char)
  | [], s => some s
  | _ :: _, [] => none
  | p :: ps, c :: cs => if c = p then dropLit ps cs else none

def jStart : List Char := ['\x7b', '"', 's', 't', 'a', 'r', 't', '"', ':', ' ']

def jEnd : List Char := [',', ' ', '"', 'e', 'n', 'd', '"', ':', ' ']

def jText : List Char := [',', ' ', '"', 't', 'e', 'x', 't', '"', ':', ' ', '"']

def jClose : List Char := ['"', '\x7d']

/-- Serialization of one segment object. -/
def dumpSegChars (s : Segment) : List Char :=
  jStart ++ intChars s.start ++ jEnd ++ intChars s.stop ++
    jText ++ escChars s.text.data ++ jClose

/-- Serialization of the rest of a list after its first segment, including
the item separators and the closing bracket. -/
def dumpSegsTail : List Segment → List Char
  | [] => [']']
  | s :: rest => ',' :: ' ' :: (dumpSegChars s ++ dumpSegsTail rest)

/-- Rendering of `json.dumps` on a segment list. -/
def dumpsSegments : List Segment → String
  | [] => String.mk ['[', ']']
  | s :: rest => String.mk ('[' :: (dumpSegChars s ++ dumpSegsTail rest))

/-- Parse one segment object. -/
def parseSegChars (cs : List Char) : Option (Segment × List Char) := do
  let cs1 ← dropLit jStart cs
  let p1 ← parseIntChars cs1
  let cs2 ← dropLit jEnd p1.2
  let p2 ← parseIntChars cs2
  let cs3 ← dropLit jText p2.2
  let p3 ← unescChars cs3
  let cs4 ← dropLit ['\x7d'] p3.2
  pure (⟨p1.1, p2.1, String.mk p3.1⟩, cs4)

/-- Parse one or more segments followed by the closing bracket and the end
of input (`fuel` bounds the number of segments). -/
def parseSegsAux : Nat → List Char → Option (List Segment)
  | 0, _ => none
  | fuel + 1, cs =>
    match parseSegChars cs with
    | none => none
    | some (sg, rest) =>
      if rest = [']'] then some [sg]
      else
        match rest with
        | c1 :: c2 :: more =>
          if c1 = ',' ∧ c2 = ' ' then (parseSegsAux fuel more).map (sg :: ·)
          else none
        | _ => none

/-- Model of `json.loads` restricted to the serializer's output format. -/
def loadsSegments (s : String) : Option (List Segment) :=
  match s.data with
  | [] => none
  | c :: rest =>
    if c = '[' then
      if rest = [']'] then some []
      else parseSegsAux rest.length rest
    else none

/-- A row of the `transcription_tasks` table (schema in
`nola/models/database.py`).  The `segments` column is TEXT holding the
`json.dumps` serialization, hence `Option String` here. -/
structure Task where
  id : String
  file_id : String
  status : TaskStatus
  priority : Int
  retry_count : Nat
  max_retries : Nat
  worker_id : Option String
  started_at : Option Int
  last_heartbeat : Option Int
  timeout_seconds : Int
  progress : Rat
  duration : Option Rat
  segments : Option String
  error : Option String
  created_at : Int
  completed_at : Option Int
  deriving DecidableEq, Repr

/-- The persistent store: ids present in the `files` table, and the rows of
the `transcription_tasks` table in rowid (insertion) order. -/
structure DB where
  files : List String
  tasks : List Task
  deriving DecidableEq, Repr

/-- The empty store produced by `init_db` on a fresh file. -/
def DB.initial : DB := { files := [], tasks := [] }

/-- Exceptions surfaced by `TaskDatabase.enqueue`: violating the PRIMARY KEY
on `transcription_tasks.id` raises `sqlite3.IntegrityError`.  The declared
FOREIGN KEY on `file_id` never fires at runtime: `PRAGMA foreign_keys = ON`
is a per-connection pragma executed only on `init_db`'s connection, while
every `TaskDatabase` method opens a fresh connection (default: foreign keys
off), so no UnknownFile-style error exists in the code. -/
inductive EnqueueError where
  | integrityError
  deriving DecidableEq, Repr

/-- The freshly inserted row of `enqueue`: explicit columns from the INSERT,
remaining columns from the schema's DEFAULT clauses. -/
def newTask (task_id file_id : String) (priority : Int) (max_retries : Nat)
    (now : Int) : Task :=
  { id := task_id, file_id := file_id, status := .pending, priority := priority,
    retry_count := 0, max_retries := max_retries, worker_id := none,
    started_at := none, last_heartbeat := none, timeout_seconds := 3600,
    progress := 0, duration := none, segments := none, error := none,
    created_at := now, completed_at := none }

/-- Semantics of `UPDATE … SET f WHERE p`: rewrite every row satisfying `p`. -/
def updWhere (p : Task → Bool) (f : Task → Task) (ts : List Task) : List Task :=
  ts.map fun t => if p t then f t else t

/-- Number of rows satisfying `p` (the `cursor.rowcount` of an UPDATE whose
predicate is `p`). -/
def countWhere (p : Task → Bool) (ts : List Task) : Nat :=
  (ts.filter p).length

/-- Model of `TaskDatabase.enqueue`: INSERT a new PENDING row.  A duplicate `task_id`
violates the PRIMARY KEY, the transaction rolls back and the store is
unchanged.  `file_id` is NOT validated (see `EnqueueError`). -/
def enqueue (db : DB) (task_id file_id : String) (priority : Int)
    (max_retries : Nat) (now : Int) : Except EnqueueError DB :=
  if db.tasks.any fun t => t.id == task_id then
    .error .integrityError
  else
    .ok { db with tasks := db.tasks ++ [newTask task_id file_id priority max_retries now] }

/-- The successful-path value of `enqueue` (on error the store is unchanged,
so the pre-state is kept); used to build concrete traces. -/
def enqueueOk (db : DB) (task_id file_id : String) (priority : Int)
    (max_retries : Nat) (now : Int) : DB :=
  match enqueue db task_id file_id priority max_retries now with
  | .ok db' => db'
  | .error _ => db

/-- Holds when `b` precedes `a` under `ORDER BY priority DESC, created_at ASC`
(strictly): `dequeue`'s subquery prefers `b` over `a`. -/
def BetterTask (a b : Task) : Prop :=
  a.priority < b.priority ∨ (b.priority = a.priority ∧ b.created_at < a.created_at)

instance (a b : Task) : Decidable (BetterTask a b) :=
  inferInstanceAs (Decidable (_ ∨ _))

/-- Scan for the first row of the SELECT's ordering: keep the current best,
replace it whenever a strictly preceding row is seen. -/
def pickBest (a : Task) : List Task → Task
  | [] => a
  | t :: ts => pickBest (if BetterTask a t then t else a) ts

/-- The row chosen by `SELECT id FROM transcription_tasks WHERE status =
'pending' ORDER BY priority DESC, created_at ASC LIMIT 1`. -/
def selectPending (ts : List Task) : Option Task :=
  match ts.filter (fun t => t.status == TaskStatus.pending) with
  | [] => none
  | t :: rest => some (pickBest t rest)

/-- The SET clause of `dequeue`'s UPDATE (both `started_at` and
`last_heartbeat` get `datetime.now()` of the call). -/
def claimTask (worker_id : String) (now : Int) (t : Task) : Task :=
  { t with status := .processing, worker_id := some worker_id,
           started_at := some now, last_heartbeat := some now }

/-- Model of `TaskDatabase.dequeue`: atomic `UPDATE … WHERE id IN (SELECT … LIMIT 1)
RETURNING *`; returns the post-image row (or `none` on an empty queue) and
the new store. -/
def dequeue (db : DB) (worker_id : String) (now : Int) : Option Task × DB :=
  match selectPending db.tasks with
  | none => (none, db)
  | some u =>
    (some (claimTask worker_id now u),
     { db with tasks := updWhere (fun t => t.id == u.id) (claimTask worker_id now) db.tasks })

/-- Model of `TaskDatabase.heartbeat`: `UPDATE … SET last_heartbeat, progress WHERE
id = ?` — no status predicate; the Python method returns `None`. -/
def heartbeatUpd (progress : Rat) (now : Int) (t : Task) : Task :=
  { t with last_heartbeat := some now, progress := progress }

def heartbeat (db : DB) (task_id : String) (progress : Rat) (now : Int) : DB :=
  { db with tasks := updWhere (fun t => t.id == task_id) (heartbeatUpd progress now) db.tasks }

/-- The SET clause of `complete`'s UPDATE: the `segments` column receives
`json.dumps(segments)`. -/
def completeUpd (segments : List Segment) (duration : Rat) (now : Int) (t : Task) : Task :=
  { t with status := .completed, segments := some (dumpsSegments segments),
           duration := some duration, progress := 100, completed_at := some now }

/-- Model of `TaskDatabase.complete`: `UPDATE … WHERE id = ?` — no status predicate;
the Python method returns `None`. -/
def complete (db : DB) (task_id : String) (segments : List Segment)
    (duration : Rat) (now : Int) : DB :=
  { db with tasks := updWhere (fun t => t.id == task_id) (completeUpd segments duration now) db.tasks }

/-- Predicate of `fail`'s first UPDATE: `WHERE id = ? AND retry_count <
max_retries` — no status predicate in the code. -/
def failRetryPred (task_id : String) (t : Task) : Bool :=
  t.id == task_id && decide (t.retry_count < t.max_retries)

/-- The SET clause of `fail`'s requeue UPDATE. -/
def failRequeue (err : String) (t : Task) : Task :=
  { t with status := .pending, retry_count := t.retry_count + 1,
           error := some err, worker_id := none, started_at := none }

/-- The SET clause of `fail`'s permanent-failure UPDATE. -/
def failPermanent (err : String) (now : Int) (t : Task) : Task :=
  { t with status := .failed, error := some err, completed_at := some now }

/-- Model of `TaskDatabase.fail`: if `should_retry`, run the requeue UPDATE and stop
when its rowcount is positive; otherwise mark the row FAILED (`WHERE id = ?`,
again with no status predicate).  The Python method returns `None` on every
path (both `return` statements are bare). -/
def fail (db : DB) (task_id err : String) (should_retry : Bool) (now : Int) : DB :=
  if should_retry then
    if 0 < countWhere (failRetryPred task_id) db.tasks then
      { db with tasks := updWhere (failRetryPred task_id) (failRequeue err) db.tasks }
    else
      { db with tasks := updWhere (fun t => t.id == task_id) (failPermanent err now) db.tasks }
  else
    { db with tasks := updWhere (fun t => t.id == task_id) (failPermanent err now) db.tasks }

/-- Predicate of `cancel`'s UPDATE: `WHERE id = ? AND status IN ('pending',
'processing')`. -/
def cancelPred (task_id : String) (t : Task) : Bool :=
  t.id == task_id && (t.status == TaskStatus.pending || t.status == TaskStatus.processing)

/-- Model of `TaskDatabase.cancel`: returns `cursor.rowcount > 0` and the new store. -/
def cancel (db : DB) (task_id : String) (now : Int) : Bool × DB :=
  let upd := fun (t : Task) => { t with status := TaskStatus.cancelled, completed_at := some now }
  (decide (0 < countWhere (cancelPred task_id) db.tasks),
   { db with tasks := updWhere (cancelPred task_id) upd db.tasks })

/-- Predicate of `requeue_timeout_tasks`: `WHERE status = 'processing' AND
started_at < timeout_at AND retry_count < max_retries` (a NULL `started_at`
makes the comparison false). -/
def timeoutPred (timeout_at : Int) (t : Task) : Bool :=
  t.status == TaskStatus.processing &&
    (match t.started_at with
     | some s => decide (s < timeout_at)
     | none => false) &&
    decide (t.retry_count < t.max_retries)

/-- The SET clause shared by both sweeper UPDATEs. -/
def requeueUpd (err : String) (t : Task) : Task :=
  { t with status := .pending, worker_id := none, started_at := none,
           retry_count := t.retry_count + 1, error := some err }

/-- Model of `TaskDatabase.requeue_timeout_tasks`: the single UPDATE of the sweep;
returns `cursor.rowcount` and the new store.  There is no second statement
for rows with `retry_count >= max_retries`. -/
def requeue_timeout_tasks (db : DB) (timeout_seconds : Int) (now : Int) : Nat × DB :=
  let timeout_at := now - timeout_seconds
  (countWhere (timeoutPred timeout_at) db.tasks,
   { db with tasks := updWhere (timeoutPred timeout_at) (requeueUpd "Task timeout - requeued") db.tasks })

/-- Predicate of `requeue_dead_workers`: gated on `last_heartbeat` instead
of `started_at`. -/
def deadPred (timeout_at : Int) (t : Task) : Bool :=
  t.status == TaskStatus.processing &&
    (match t.last_heartbeat with
     | some s => decide (s < timeout_at)
     | none => false) &&
    decide (t.retry_count < t.max_retries)

/-- Model of `TaskDatabase.requeue_dead_workers`. -/
def requeue_dead_workers (db : DB) (heartbeat_timeout : Int) (now : Int) : Nat × DB :=
  let timeout_at := now - heartbeat_timeout
  (countWhere (deadPred timeout_at) db.tasks,
   { db with tasks := updWhere (deadPred timeout_at) (requeueUpd "Worker heartbeat timeout - requeued") db.tasks })

/-- A row as returned by `get_task`: the raw columns with the `segments`
TEXT replaced by its parsed JSON value. -/
structure TaskOut where
  id : String
  file_id : String
  status : TaskStatus
  priority : Int
  retry_count : Nat
  max_retries : Nat
  worker_id : Option String
  started_at : Option Int
  last_heartbeat : Option Int
  timeout_seconds : Int
  progress : Rat
  duration : Option Rat
  segments : Option (List Segment)
  error : Option String
  created_at : Int
  completed_at : Option Int
  deriving DecidableEq, Repr

/-- Model of `get_task`'s post-processing `if task["segments"]: task["segments"] =
json.loads(task["segments"])`: a NULL (or falsy, i.e. empty — never produced
by `json.dumps`) column is left unparsed. -/
def parseStoredSegments : Option String → Option (List Segment)
  | none => none
  | some s => if s = "" then none else loadsSegments s

def viewOf (t : Task) : TaskOut :=
  { id := t.id, file_id := t.file_id, status := t.status, priority := t.priority,
    retry_count := t.retry_count, max_retries := t.max_retries,
    worker_id := t.worker_id, started_at := t.started_at,
    last_heartbeat := t.last_heartbeat, timeout_seconds := t.timeout_seconds,
    progress := t.progress, duration := t.duration,
    segments := parseStoredSegments t.segments, error := t.error,
    created_at := t.created_at, completed_at := t.completed_at }

/-- Model of `TaskDatabase.get_task`: `SELECT * … WHERE id = ?`, `fetchone`. -/
def get_task (db : DB) (task_id : String) : Option TaskOut :=
  (db.tasks.find? fun t => t.id == task_id).map viewOf

/-- Model of `TaskDatabase.update_status` (legacy): unconditional `WHERE id = ?`
overwrite of `status` and `error`; terminal target statuses additionally
set `completed_at = now`. -/
def update_status (db : DB) (task_id : String) (status : TaskStatus)
    (error : Option String) (now : Int) : DB :=
  if status = .completed ∨ status = .failed ∨ status = .cancelled then
    let f := fun (t : Task) => { t with status := status, error := error, completed_at := some now }
    { db with tasks := updWhere (fun t => t.id == task_id) f db.tasks }
  else
    let f := fun (t : Task) => { t with status := status, error := error }
    { db with tasks := updWhere (fun t => t.id == task_id) f db.tasks }

/-!
### Transition system

One committed transition of the store under the queue operations named by
the spec (`enqueue`, `dequeue`, `heartbeat`, `complete`, `fail`, `cancel`,
and the two sweeper passes).
-/

inductive QueueStep : DB → DB → Prop where
  | enqueue (db : DB) (task_id file_id : String) (priority : Int)
      (max_retries : Nat) (now : Int) :
      QueueStep db (enqueueOk db task_id file_id priority max_retries now)
  | dequeue (db : DB) (worker_id : String) (now : Int) :
      QueueStep db (dequeue db worker_id now).2
  | heartbeat (db : DB) (task_id : String) (progress : Rat) (now : Int) :
      QueueStep db (heartbeat db task_id progress now)
  | complete (db : DB) (task_id : String) (segments : List Segment)
      (duration : Rat) (now : Int) :
      QueueStep db (complete db task_id segments duration now)
  | fail (db : DB) (task_id err : String) (should_retry : Bool) (now : Int) :
      QueueStep db (fail db task_id err should_retry now)
  | cancel (db : DB) (task_id : String) (now : Int) :
      QueueStep db (cancel db task_id now).2
  | sweepTimeout (db : DB) (timeout_seconds : Int) (now : Int) :
      QueueStep db (requeue_timeout_tasks db timeout_seconds now).2
  | sweepDead (db : DB) (heartbeat_timeout : Int) (now : Int) :
      QueueStep db (requeue_dead_workers db heartbeat_timeout now).2

/-- States reachable from the fresh store through queue operations. -/
def Reachable (db : DB) : Prop :=
  Relation.ReflTransGen QueueStep DB.initial db

/-- Row-level form of spec invariant 1, forward direction. -/
def TaskInv (t : Task) : Prop :=
  t.status = .processing → t.worker_id ≠ none ∧ t.started_at ≠ none

/-- A PROCESSING row always carries a worker claim and a start time. -/
def ProcInv (db : DB) : Prop :=
  ∀ t ∈ db.tasks, TaskInv t

/-!
### Concrete traces used by several claims
-/

/-- enqueue → dequeue → cancel: a CANCELLED task whose claim fields are
still set (`worker_id = "w1"`, `started_at = 1`, `progress = 0`,
`last_heartbeat = 1`). -/
def cancelledTrace : DB :=
  (cancel (dequeue (enqueueOk DB.initial "t1" "f1" 0 3 0) "w1" 1).2 "t1" 2).2

/-- The poison-pill trace of the spec's scenario 3 (task with
`max_retries = 2`, three dequeue-then-sweep(0) cycles), stopped just
before the third sweep. -/
def poisonMid : DB :=
  let db0 := enqueueOk DB.initial "tp" "f1" 0 2 0
  let db1 := (requeue_timeout_tasks (dequeue db0 "w1" 1).2 0 2).2
  let db2 := (requeue_timeout_tasks (dequeue db1 "w1" 3).2 0 4).2
  (dequeue db2 "w1" 5).2

/-- The poison-pill trace after its third sweep. -/
def poisonTrace : DB :=
  (requeue_timeout_tasks poisonMid 0 6).2






/-!
### Serializer round-trip
-/

theorem digitChar_isDigit {d : Nat} (h : d < 10) : (digitChar d).isDigit = true := by
  interval_cases d <;> decide

theorem digitChar_toNat {d : Nat} (h : d < 10) : (digitChar d).toNat = 48 + d := by
  interval_cases d <;> decide

theorem digitsVal_append_singleton (xs : List Char) (c : Char) :
    digitsVal (xs ++ [c]) = 10 * digitsVal xs + (c.toNat - 48) := by
  simp [digitsVal, List.foldl_append]

theorem natCharsAux_spec :
    ∀ fuel n, n < fuel →
      natCharsAux fuel n ≠ [] ∧ (∀ c ∈ natCharsAux fuel n, c.isDigit = true) ∧
        digitsVal (natCharsAux fuel n) = n := by
  intro fuel
  induction fuel with
  | zero => intro n h; omega
  | succ fuel ih =>
    intro n h
    by_cases h10 : n < 10
    · refine ⟨by simp [natCharsAux, h10], ?_, ?_⟩
      · intro c hc
        simp [natCharsAux, h10] at hc
        subst hc
        exact digitChar_isDigit h10
      · simp [natCharsAux, h10, digitsVal, digitChar_toNat h10]
    · have hdiv : n / 10 < fuel := by omega
      obtain ⟨hne, hdig, hval⟩ := ih (n / 10) hdiv
      refine ⟨by simp [natCharsAux, h10], ?_, ?_⟩
      · intro c hc
        simp only [natCharsAux, if_neg h10, List.mem_append, List.mem_singleton] at hc
        rcases hc with hc | hc
        · exact hdig c hc
        · subst hc
          exact digitChar_isDigit (Nat.mod_lt _ (by omega))
      · rw [natCharsAux, if_neg h10, digitsVal_append_singleton, hval,
          digitChar_toNat (Nat.mod_lt _ (by omega))]
        omega

theorem natChars_ne_nil (n : Nat) : natChars n ≠ [] :=
  (natCharsAux_spec (n + 1) n (Nat.lt_succ_self n)).1

theorem natChars_digits (n : Nat) : ∀ c ∈ natChars n, c.isDigit = true :=
  (natCharsAux_spec (n + 1) n (Nat.lt_succ_self n)).2.1

theorem digitsVal_natChars (n : Nat) : digitsVal (natChars n) = n :=
  (natCharsAux_spec (n + 1) n (Nat.lt_succ_self n)).2.2

theorem takeDigits_append (d rest : List Char) (hd : ∀ c ∈ d, c.isDigit = true)
    (hr : ∀ c cs, rest = c :: cs → c.isDigit = false) :
    takeDigits (d ++ rest) = (d, rest) := by
  induction d with
  | nil =>
    cases hrest : rest with
    | nil => simp [takeDigits]
    | cons c cs => simp [takeDigits, hr c cs hrest]
  | cons a d ih =>
    have ha : a.isDigit = true := hd a (by simp)
    have := ih fun c hc => hd c (by
      simp only [List.mem_cons]
      exact Or.inr hc)
    simp [takeDigits, ha, this]

theorem parseIntChars_natChars (n : Nat) (rest : List Char)
    (hr : ∀ c cs, rest = c :: cs → c.isDigit = false) :
    parseIntChars (natChars n ++ rest) = some ((n : Int), rest) := by
  have htd := takeDigits_append (natChars n) rest (natChars_digits _) hr
  obtain ⟨c, tl, hct⟩ := List.exists_cons_of_ne_nil (natChars_ne_nil n)
  have hcdig : c.isDigit = true := natChars_digits n c (by rw [hct]; simp)
  have hcne : ¬ c = '-' := by
    intro hc
    rw [hc] at hcdig
    simp at hcdig
  have hsplit : natChars n ++ rest = c :: (tl ++ rest) := by rw [hct, List.cons_append]
  rw [hsplit, parseIntChars, if_neg hcne, ← hsplit, htd]
  rw [if_neg (natChars_ne_nil n), digitsVal_natChars]

theorem parseIntChars_intChars (i : Int) (rest : List Char)
    (hr : ∀ c cs, rest = c :: cs → c.isDigit = false) :
    parseIntChars (intChars i ++ rest) = some (i, rest) := by
  by_cases hneg : i < 0
  · have htd := takeDigits_append (natChars i.natAbs) rest (natChars_digits _) hr
    rw [intChars, if_pos hneg, List.cons_append, parseIntChars, if_pos rfl, htd]
    rw [if_neg (natChars_ne_nil _), digitsVal_natChars]
    have : -(i.natAbs : Int) = i := by omega
    rw [this]
  · rw [intChars, if_neg hneg, parseIntChars_natChars _ _ hr]
    have : (i.natAbs : Int) = i := by omega
    rw [this]

theorem unescChars_escChars (t : List Char) :
    ∀ rest, unescChars (escChars t ++ '"' :: rest) = some (t, rest) := by
  induction t with
  | nil =>
    intro rest
    rw [escChars, List.nil_append, unescChars.eq_def]
    simp
  | cons c cs ih =>
    intro rest
    by_cases hesc : c = '"' ∨ c = '\\'
    · rw [escChars, if_pos hesc, List.cons_append, List.cons_append, unescChars.eq_def]
      simp [ih rest]
    · push_neg at hesc
      rw [escChars, if_neg (by tauto : ¬(c = '"' ∨ c = '\\')), List.cons_append,
        unescChars.eq_def]
      simp [hesc.1, hesc.2, ih rest]

theorem dropLit_append (p rest : List Char) : dropLit p (p ++ rest) = some rest := by
  induction p with
  | nil => simp [dropLit]
  | cons a p ih => simp [dropLit, ih]

theorem dropLit_brace (l : List Char) : dropLit ['\x7d'] ('\x7d' :: l) = some l := by
  simp [dropLit]

theorem parseSegChars_dump (s : Segment) (rest : List Char) :
    parseSegChars (dumpSegChars s ++ rest) = some (s, rest) := by
  have hr1 : ∀ c cs,
      jEnd ++ (intChars s.stop ++ (jText ++ (escChars s.text.data ++ (jClose ++ rest)))) =
        c :: cs → c.isDigit = false := by
    intro c cs h
    simp only [jEnd, List.cons_append] at h
    injection h with h1 _
    rw [← h1]
    decide
  have hr2 : ∀ c cs,
      jText ++ (escChars s.text.data ++ (jClose ++ rest)) = c :: cs → c.isDigit = false := by
    intro c cs h
    simp only [jText, List.cons_append] at h
    injection h with h1 _
    rw [← h1]
    decide
  simp only [parseSegChars, dumpSegChars, List.append_assoc]
  rw [dropLit_append]
  simp only [Option.bind_eq_bind, Option.some_bind]
  rw [parseIntChars_intChars s.start _ hr1]
  simp only [Option.some_bind]
  rw [dropLit_append]
  simp only [Option.some_bind]
  rw [parseIntChars_intChars s.stop _ hr2]
  simp only [Option.some_bind]
  rw [dropLit_append]
  simp only [Option.some_bind]
  have hclose : escChars s.text.data ++ (jClose ++ rest) =
      escChars s.text.data ++ '"' :: ('\x7d' :: rest) := by
    simp [jClose]
  rw [hclose, unescChars_escChars]
  simp only [Option.some_bind]
  rw [dropLit_brace]
  simp only [Option.some_bind, Option.pure_def]

theorem parseSegsAux_dump (L : List Segment) :
    ∀ (s : Segment) (fuel : Nat), L.length < fuel →
      parseSegsAux fuel (dumpSegChars s ++ dumpSegsTail L) = some (s :: L) := by
  induction L with
  | nil =>
    intro s fuel hf
    match fuel, hf with
    | fuel + 1, _ =>
      rw [parseSegsAux, dumpSegsTail, parseSegChars_dump]
      simp
  | cons b L ih =>
    intro s fuel hf
    match fuel, hf with
    | fuel + 1, hf =>
      rw [parseSegsAux, dumpSegsTail, parseSegChars_dump]
      dsimp only
      have hne : ¬ (',' :: ' ' :: (dumpSegChars b ++ dumpSegsTail L) = [']']) := by
        simp
      rw [if_neg hne]
      have : L.length < fuel := by
        simp only [List.length_cons] at hf
        omega
      simp [ih b fuel this]

theorem dumpSegChars_ne_nil (s : Segment) : dumpSegChars s ≠ [] := by
  simp [dumpSegChars, jStart]

theorem dumpSegsTail_length (L : List Segment) : L.length < (dumpSegsTail L).length := by
  induction L with
  | nil => simp [dumpSegsTail]
  | cons b L ih =>
    simp only [dumpSegsTail, List.length_cons, List.length_append]
    omega

/-- Round trip: `json.loads` inverts `json.dumps` on every segment list. -/
theorem loadsSegments_dumpsSegments (L : List Segment) :
    loadsSegments (dumpsSegments L) = some L := by
  cases L with
  | nil => decide
  | cons s L =>
    rw [dumpsSegments, loadsSegments]
    have hdata : (String.mk ('[' :: (dumpSegChars s ++ dumpSegsTail L))).data =
        '[' :: (dumpSegChars s ++ dumpSegsTail L) := rfl
    rw [hdata]
    obtain ⟨c, tl, hct⟩ := List.exists_cons_of_ne_nil (dumpSegChars_ne_nil s)
    have hhead : c = '\x7b' := by
      have : dumpSegChars s = '\x7b' :: (jStart.tail ++ intChars s.start ++ jEnd ++
          intChars s.stop ++ jText ++ escChars s.text.data ++ jClose) := by
        simp [dumpSegChars, jStart]
      rw [this] at hct
      injection hct with h1 _
      exact h1.symm
    have hne : ¬ (dumpSegChars s ++ dumpSegsTail L = [']']) := by
      rw [hct, hhead]
      simp
    dsimp only
    rw [if_pos rfl, if_neg hne]
    apply parseSegsAux_dump
    have h1 := dumpSegsTail_length L
    have h2 : 0 < (dumpSegChars s).length := by
      rw [hct]
      simp
    simp only [List.length_append]
    omega

/-!
### Dequeue selection
-/

theorem betterTask_irrefl (a : Task) : ¬ BetterTask a a := by
  unfold BetterTask
  omega

theorem pickBest_mem (l : List Task) : ∀ a : Task, pickBest a l ∈ a :: l := by
  induction l with
  | nil =>
    intro a
    rw [pickBest]
    exact List.mem_singleton.mpr rfl
  | cons b l ih =>
    intro a
    rw [pickBest]
    by_cases h : BetterTask a b
    · rw [if_pos h]
      rcases List.mem_cons.mp (ih b) with h1 | h1
      · rw [h1]
        exact List.mem_cons.mpr (Or.inr (List.mem_cons.mpr (Or.inl rfl)))
      · exact List.mem_cons.mpr (Or.inr (List.mem_cons.mpr (Or.inr h1)))
    · rw [if_neg h]
      rcases List.mem_cons.mp (ih a) with h1 | h1
      · rw [h1]
        exact List.mem_cons.mpr (Or.inl rfl)
      · exact List.mem_cons.mpr (Or.inr (List.mem_cons.mpr (Or.inr h1)))

theorem pickBest_not_better (l : List Task) :
    ∀ a : Task, ∀ x ∈ a :: l, ¬ BetterTask (pickBest a l) x := by
  induction l with
  | nil =>
    intro a x hx
    rw [List.mem_singleton] at hx
    rw [hx, pickBest]
    exact betterTask_irrefl a
  | cons b l ih =>
    intro a x hx hbet
    rw [pickBest] at hbet
    rcases List.mem_cons.mp hx with heq | hx'
    · by_cases hab : BetterTask a b
      · rw [if_pos hab] at hbet
        rw [heq] at hbet
        have hrb := ih b b (List.mem_cons.mpr (Or.inl rfl))
        unfold BetterTask at hrb hab hbet
        omega
      · rw [if_neg hab] at hbet
        rw [heq] at hbet
        exact ih a a (List.mem_cons.mpr (Or.inl rfl)) hbet
    · rcases List.mem_cons.mp hx' with heq | hx''
      · by_cases hab : BetterTask a b
        · rw [if_pos hab] at hbet
          rw [heq] at hbet
          exact ih b b (List.mem_cons.mpr (Or.inl rfl)) hbet
        · rw [if_neg hab] at hbet
          rw [heq] at hbet
          have hra := ih a a (List.mem_cons.mpr (Or.inl rfl))
          unfold BetterTask at hra hab hbet
          omega
      · by_cases hab : BetterTask a b
        · rw [if_pos hab] at hbet
          exact ih b x (List.mem_cons.mpr (Or.inr hx'')) hbet
        · rw [if_neg hab] at hbet
          exact ih a x (List.mem_cons.mpr (Or.inr hx'')) hbet

theorem selectPending_mem {ts : List Task} {u : Task} (h : selectPending ts = some u) :
    u ∈ ts ∧ u.status = .pending := by
  unfold selectPending at h
  cases hf : ts.filter (fun t => t.status == TaskStatus.pending) with
  | nil =>
    rw [hf] at h
    simp at h
  | cons t rest =>
    rw [hf] at h
    simp only [Option.some.injEq] at h
    subst h
    have hmem : pickBest t rest ∈ t :: rest := pickBest_mem rest t
    rw [← hf] at hmem
    have hm := List.mem_filter.mp hmem
    refine ⟨hm.1, ?_⟩
    simpa using hm.2

theorem selectPending_not_better {ts : List Task} {u : Task} (h : selectPending ts = some u) :
    ∀ v ∈ ts, v.status = .pending → ¬ BetterTask u v := by
  intro v hv hvs
  unfold selectPending at h
  cases hf : ts.filter (fun t => t.status == TaskStatus.pending) with
  | nil =>
    rw [hf] at h
    simp at h
  | cons t rest =>
    rw [hf] at h
    simp only [Option.some.injEq] at h
    subst h
    have hvf : v ∈ t :: rest := by
      rw [← hf]
      exact List.mem_filter.mpr ⟨hv, by simp [hvs]⟩
    exact pickBest_not_better rest t v hvf

theorem selectPending_none {ts : List Task} (h : ∀ t ∈ ts, t.status ≠ .pending) :
    selectPending ts = none := by
  unfold selectPending
  have hnil : ts.filter (fun t => t.status == TaskStatus.pending) = [] := by
    rw [List.filter_eq_nil_iff]
    intro a ha
    simp [h a ha]
  rw [hnil]

/-!
### Row-update lemmas and the PROCESSING invariant
-/

theorem updWhere_forall {p : Task → Bool} {f : Task → Task} {ts : List Task} {P : Task → Prop}
    (h : ∀ t ∈ ts, p t = true → P (f t)) (h2 : ∀ t ∈ ts, p t = false → P t) :
    ∀ t ∈ updWhere p f ts, P t := by
  intro t ht
  unfold updWhere at ht
  obtain ⟨s, hs, rfl⟩ := List.mem_map.mp ht
  by_cases hp : p s
  · rw [if_pos hp]
    exact h s hs hp
  · rw [if_neg hp]
    exact h2 s hs (by simpa using hp)

theorem mem_updWhere_of_mem {p : Task → Bool} {f : Task → Task} {ts : List Task} {t : Task}
    (h : t ∈ ts) (hp : p t = true) : f t ∈ updWhere p f ts := by
  unfold updWhere
  refine List.mem_map.mpr ⟨t, h, ?_⟩
  rw [if_pos hp]

theorem taskInv_of_status_ne {t : Task} (h : t.status ≠ .processing) : TaskInv t :=
  fun hs => absurd hs h

theorem procInv_enqueueOk (db : DB) (a b : String) (pr : Int) (mr : Nat) (now : Int)
    (h : ProcInv db) : ProcInv (enqueueOk db a b pr mr now) := by
  by_cases hc : db.tasks.any (fun t => t.id == a) = true
  · simp only [enqueueOk, enqueue, if_pos hc]
    exact h
  · simp only [enqueueOk, enqueue, if_neg hc]
    intro t ht
    rcases List.mem_append.mp ht with h1 | h1
    · exact h t h1
    · rw [List.mem_singleton] at h1
      subst h1
      exact taskInv_of_status_ne (by simp [newTask])

theorem procInv_dequeue (db : DB) (w : String) (now : Int) (h : ProcInv db) :
    ProcInv (dequeue db w now).2 := by
  unfold dequeue
  cases hsel : selectPending db.tasks with
  | none => exact h
  | some u =>
    dsimp only
    exact updWhere_forall
      (fun s _ _ => fun _ => ⟨by simp [claimTask], by simp [claimTask]⟩)
      (fun s hs _ => h s hs)

theorem procInv_heartbeat (db : DB) (task_id : String) (p : Rat) (now : Int) (h : ProcInv db) :
    ProcInv (heartbeat db task_id p now) := by
  unfold heartbeat
  exact updWhere_forall
    (fun s hs _ => fun hst => by
      simp only [heartbeatUpd] at hst ⊢
      exact h s hs hst)
    (fun s hs _ => h s hs)

theorem procInv_complete (db : DB) (task_id : String) (segs : List Segment) (d : Rat)
    (now : Int) (h : ProcInv db) : ProcInv (complete db task_id segs d now) := by
  unfold complete
  exact updWhere_forall
    (fun s _ _ => taskInv_of_status_ne (by simp [completeUpd]))
    (fun s hs _ => h s hs)

theorem procInv_fail (db : DB) (task_id err : String) (r : Bool) (now : Int) (h : ProcInv db) :
    ProcInv (fail db task_id err r now) := by
  unfold fail
  split
  · split
    · exact updWhere_forall
        (fun s _ _ => taskInv_of_status_ne (by simp [failRequeue]))
        (fun s hs _ => h s hs)
    · exact updWhere_forall
        (fun s _ _ => taskInv_of_status_ne (by simp [failPermanent]))
        (fun s hs _ => h s hs)
  · exact updWhere_forall
      (fun s _ _ => taskInv_of_status_ne (by simp [failPermanent]))
      (fun s hs _ => h s hs)

theorem procInv_cancel (db : DB) (task_id : String) (now : Int) (h : ProcInv db) :
    ProcInv (cancel db task_id now).2 := by
  unfold cancel
  exact updWhere_forall
    (fun s _ _ => taskInv_of_status_ne (by simp))
    (fun s hs _ => h s hs)

theorem procInv_sweepTimeout (db : DB) (ts now : Int) (h : ProcInv db) :
    ProcInv (requeue_timeout_tasks db ts now).2 := by
  unfold requeue_timeout_tasks
  exact updWhere_forall
    (fun s _ _ => taskInv_of_status_ne (by simp [requeueUpd]))
    (fun s hs _ => h s hs)

theorem procInv_sweepDead (db : DB) (ts now : Int) (h : ProcInv db) :
    ProcInv (requeue_dead_workers db ts now).2 := by
  unfold requeue_dead_workers
  exact updWhere_forall
    (fun s _ _ => taskInv_of_status_ne (by simp [requeueUpd]))
    (fun s hs _ => h s hs)

theorem procInv_step {db db' : DB} (h : QueueStep db db') (hinv : ProcInv db) : ProcInv db' := by
  cases h with
  | enqueue a b pr mr now => exact procInv_enqueueOk db a b pr mr now hinv
  | dequeue w now => exact procInv_dequeue db w now hinv
  | heartbeat tid p now => exact procInv_heartbeat db tid p now hinv
  | complete tid segs d now => exact procInv_complete db tid segs d now hinv
  | fail tid err r now => exact procInv_fail db tid err r now hinv
  | cancel tid now => exact procInv_cancel db tid now hinv
  | sweepTimeout ts now => exact procInv_sweepTimeout db ts now hinv
  | sweepDead ts now => exact procInv_sweepDead db ts now hinv

/-!
### Claims
-/

/-- Priority-ordering scenario of C1: PENDING tasks A (priority 0, created
0), B (10, 1), C (5, 2), D (10, 3). -/
def ordTrace : DB :=
  enqueueOk (enqueueOk (enqueueOk (enqueueOk DB.initial "A" "f" 0 3 0)
    "B" "f" 10 3 1) "C" "f" 5 3 2) "D" "f" 10 3 3

def ordDq1 : Option Task × DB := dequeue ordTrace "w" 10

def ordDq2 : Option Task × DB := dequeue ordDq1.2 "w" 11

def ordDq3 : Option Task × DB := dequeue ordDq2.2 "w" 12

def ordDq4 : Option Task × DB := dequeue ordDq3.2 "w" 13

/-- C1: `dequeue` atomically claims the single PENDING task of maximum
`priority` (ties broken by minimum `created_at`), sets it PROCESSING with
`worker_id`, `started_at`, `last_heartbeat` = now, returns the post-image,
and returns none on an empty queue; on the four-task scenario the dequeue
order is B, D, C, A. -/
theorem C1_dequeue_claims_best_pending :
    (∀ db w now, (∀ t ∈ db.tasks, t.status ≠ TaskStatus.pending) →
      dequeue db w now = (none, db)) ∧
    (∀ db w now t, (dequeue db w now).1 = some t →
      ∃ u ∈ db.tasks, u.status = TaskStatus.pending ∧ t = claimTask w now u ∧
        t.status = TaskStatus.processing ∧ t.worker_id = some w ∧
        t.started_at = some now ∧ t.last_heartbeat = some now ∧
        (∀ v ∈ db.tasks, v.status = TaskStatus.pending →
          v.priority < u.priority ∨ (v.priority = u.priority ∧ u.created_at ≤ v.created_at)) ∧
        (dequeue db w now).2 =
          { db with tasks := updWhere (fun x => x.id == u.id) (claimTask w now) db.tasks }) ∧
    (ordDq1.1.map Task.id = some "B" ∧ ordDq2.1.map Task.id = some "D" ∧
      ordDq3.1.map Task.id = some "C" ∧ ordDq4.1.map Task.id = some "A") := by
  refine ⟨?_, ?_, ?_⟩
  · intro db w now h
    unfold dequeue
    rw [selectPending_none h]
  · intro db w now t h
    unfold dequeue at h
    cases hsel : selectPending db.tasks with
    | none =>
      rw [hsel] at h
      simp at h
    | some u =>
      rw [hsel] at h
      simp only [Option.some.injEq] at h
      obtain ⟨hmem, hpend⟩ := selectPending_mem hsel
      refine ⟨u, hmem, hpend, h.symm, ?_, ?_, ?_, ?_, ?_, ?_⟩
      · rw [← h]; rfl
      · rw [← h]; rfl
      · rw [← h]; rfl
      · rw [← h]; rfl
      · intro v hv hvs
        have hnb := selectPending_not_better hsel v hv hvs
        unfold BetterTask at hnb
        omega
      · unfold dequeue
        rw [hsel]
  · exact ⟨by decide, by decide, by decide, by decide⟩

theorem C1_dequeue_witness : dequeue DB.initial "w0" 5 = (none, DB.initial) :=
  C1_dequeue_claims_best_pending.1 DB.initial "w0" 5 (by
    intro t ht
    simp [DB.initial] at ht)

/-- C2: evaluation at the failing input.  After enqueue → dequeue → cancel,
`fail(t1, "boom", should_retry=true)` requeues the CANCELLED task — its
requeue UPDATE has no `status = 'processing'` predicate — moving a task out
of a terminal state (and the Python method returns `None`, not a boolean,
on every path). -/
theorem C2_fail_requeues_cancelled_task :
    cancelledTrace.tasks.map (fun t => (t.status, t.retry_count, t.completed_at)) =
      [(TaskStatus.cancelled, 0, some 2)] ∧
    (fail cancelledTrace "t1" "boom" true 3).tasks.map
      (fun t => (t.status, t.retry_count, t.worker_id, t.error)) =
      [(TaskStatus.pending, 1, none, some "boom")] := by
  exact ⟨by decide, by decide⟩

/-- C3: evaluation at the failing input.  After enqueue → dequeue → cancel,
`complete` still applies (its UPDATE has no status predicate): the task
moves CANCELLED → COMPLETED and `segments` becomes non-null, while the
Python method returns `None`, not false. -/
theorem C3_complete_overwrites_cancelled_task :
    cancelledTrace.tasks.map (fun t => (t.status, t.segments)) =
      [(TaskStatus.cancelled, none)] ∧
    (complete cancelledTrace "t1" [] 2 4).tasks.map (fun t => (t.status, t.segments)) =
      [(TaskStatus.completed, some "[]")] := by
  exact ⟨by decide, by decide⟩

/-- C4: evaluation at the failing input.  After enqueue → dequeue → cancel,
`heartbeat(t1, 50)` still updates `progress` and `last_heartbeat` (its
UPDATE has no status predicate), changing both from their pre-cancel values
0 and 1; the Python method returns `None`, not false. -/
theorem C4_heartbeat_updates_cancelled_task :
    cancelledTrace.tasks.map (fun t => (t.status, t.progress, t.last_heartbeat)) =
      [(TaskStatus.cancelled, 0, some 1)] ∧
    (heartbeat cancelledTrace "t1" 50 5).tasks.map
      (fun t => (t.status, t.progress, t.last_heartbeat)) =
      [(TaskStatus.cancelled, 50, some 5)] := by
  exact ⟨by decide, by decide⟩

/-- C5: evaluation at the failing input.  The sweep has only the requeue
statement: on the poison-pill trace (max_retries = 2, three
dequeue-then-sweep(0) cycles) the third sweep matches nothing
(`retry_count < max_retries` fails), so the task stays PROCESSING with the
requeue error message — it is never transitioned to FAILED with a
"max retries exceeded" error. -/
theorem C5_sweep_has_no_fail_phase :
    (requeue_timeout_tasks poisonMid 0 6).1 = 0 ∧
    poisonTrace.tasks.map (fun t => (t.status, t.retry_count, t.error, t.completed_at)) =
      [(TaskStatus.processing, 2, some "Task timeout - requeued", none)] := by
  exact ⟨by decide, by decide⟩

/-- C6 (amended): in every store reachable through the queue operations, a
PROCESSING task has non-null `worker_id` and `started_at` (the converse of
the claimed equivalence fails: terminal transitions leave the claim fields
set — see the counterexample). -/
theorem C6_processing_implies_claim_fields (db : DB) (h : Reachable db) : ProcInv db := by
  unfold Reachable at h
  induction h with
  | refl =>
    intro t ht
    simp [DB.initial] at ht
  | tail hsteps hstep ih => exact procInv_step hstep ih

def C6WitnessDB : DB := (dequeue (enqueueOk DB.initial "t1" "f1" 0 3 0) "w1" 1).2

theorem C6_witness : ProcInv C6WitnessDB :=
  C6_processing_implies_claim_fields C6WitnessDB
    (Relation.ReflTransGen.tail
      (Relation.ReflTransGen.tail Relation.ReflTransGen.refl
        (QueueStep.enqueue DB.initial "t1" "f1" 0 3 0))
      (QueueStep.dequeue (enqueueOk DB.initial "t1" "f1" 0 3 0) "w1" 1))

/-- C6 counterexample: after enqueue → dequeue → cancel (each a queue
operation), the task is CANCELLED yet `worker_id` and `started_at` are
still non-null, refuting the claimed equivalence `status = PROCESSING ⟺
worker_id ≠ null ∧ started_at ≠ null`. -/
theorem C6_counterexample :
    ∃ t ∈ cancelledTrace.tasks,
      t.status = TaskStatus.cancelled ∧ t.worker_id = some "w1" ∧ t.started_at = some 1 := by
  decide

/-- C7: evaluation at the failing input.  On a fresh store with no File
records, `enqueue("t1", "nofile")` succeeds and inserts the task — the
FOREIGN KEY on `file_id` is never enforced because `PRAGMA foreign_keys`
is per-connection and only `init_db`'s connection turns it on.  The
DuplicateId half of the claim does hold: a second insert of the same id
raises IntegrityError and leaves the store unchanged. -/
theorem C7_enqueue_unknown_file_succeeds :
    DB.initial.files = [] ∧
    (enqueue DB.initial "t1" "nofile" 0 3 0).toOption.map (fun d => d.tasks.map Task.id) =
      some ["t1"] ∧
    enqueue (enqueueOk DB.initial "t1" "f" 0 3 0) "t1" "f" 5 3 1 = .error .integrityError :=
  ⟨rfl, by decide, rfl⟩

theorem dumpsSegments_ne_empty (L : List Segment) : dumpsSegments L ≠ "" := by
  cases L with
  | nil => decide
  | cons s rest =>
    rw [dumpsSegments]
    intro h
    have hd : ('[' :: (dumpSegChars s ++ dumpSegsTail rest)) = [] := congrArg String.data h
    simp at hd

/-- C8: round-trip law R2.  For every task id, worker id, segment list `S`
and duration `D`, after enqueue → dequeue → complete(t, S, D) a `get_task`
returns segments equal to `S` (surviving `json.dumps`/`json.loads`) and
duration equal to `D`. -/
theorem C8_complete_get_task_roundtrip (t f w : String) (pr : Int) (mr : Nat)
    (S : List Segment) (D : Rat) (n0 n1 n2 : Int) :
    (get_task (complete (dequeue (enqueueOk DB.initial t f pr mr n0) w n1).2 t S D n2) t).map
      (fun v => (v.segments, v.duration)) = some (some S, some D) := by
  have h1 : enqueueOk DB.initial t f pr mr n0 =
      { files := [], tasks := [newTask t f pr mr n0] } := by
    simp [enqueueOk, enqueue, DB.initial]
  have hsel : selectPending [newTask t f pr mr n0] = some (newTask t f pr mr n0) := by
    simp [selectPending, newTask, pickBest]
  have h2 : (dequeue { files := [], tasks := [newTask t f pr mr n0] } w n1).2 =
      { files := [], tasks := [claimTask w n1 (newTask t f pr mr n0)] } := by
    unfold dequeue
    rw [hsel]
    dsimp only
    simp [updWhere]
  have h3 : complete { files := [], tasks := [claimTask w n1 (newTask t f pr mr n0)] }
      t S D n2 =
      { files := [],
        tasks := [completeUpd S D n2 (claimTask w n1 (newTask t f pr mr n0))] } := by
    simp [complete, updWhere, claimTask, newTask]
  rw [h1, h2, h3]
  have h4 : get_task
      { files := [],
        tasks := [completeUpd S D n2 (claimTask w n1 (newTask t f pr mr n0))] } t =
      some (viewOf (completeUpd S D n2 (claimTask w n1 (newTask t f pr mr n0)))) := by
    simp [get_task, completeUpd, claimTask, newTask]
  rw [h4]
  simp only [Option.map_some', Option.some.injEq, Prod.mk.injEq]
  constructor
  · show parseStoredSegments (some (dumpsSegments S)) = some S
    rw [parseStoredSegments, if_neg (dumpsSegments_ne_empty S),
      loadsSegments_dumpsSegments]
  · rfl

/-- enqueue → dequeue → complete: a COMPLETED task with `completed_at = 2`. -/
def completedTrace : DB :=
  complete (dequeue (enqueueOk DB.initial "t1" "f1" 0 3 0) "w1" 1).2 "t1" [] 5 2

/-- C9: the legacy `update_status` overwrites `status` (and `error`)
unconditionally — for every store and every current status, each row
matching the id gets exactly the requested status; in particular applying
it with PENDING to a COMPLETED task moves the task out of the terminal
state while `completed_at` stays non-null. -/
theorem C9_update_status_unconditional :
    (∀ db task_id status err now, ∀ t ∈ (update_status db task_id status err now).tasks,
      t.id = task_id → t.status = status ∧ t.error = err) ∧
    (update_status completedTrace "t1" TaskStatus.pending none 3).tasks.map
      (fun t => (t.status, t.completed_at)) = [(TaskStatus.pending, some 2)] := by
  constructor
  · intro db task_id status err now t ht hid
    unfold update_status at ht
    by_cases hterm : status = TaskStatus.completed ∨ status = TaskStatus.failed ∨
        status = TaskStatus.cancelled
    · rw [if_pos hterm] at ht
      refine updWhere_forall (P := fun t => t.id = task_id → t.status = status ∧ t.error = err)
        ?_ ?_ t ht hid
      · intro s _ _ _
        exact ⟨rfl, rfl⟩
      · intro s _ hp hsid
        rw [hsid] at hp
        simp at hp
    · rw [if_neg hterm] at ht
      refine updWhere_forall (P := fun t => t.id = task_id → t.status = status ∧ t.error = err)
        ?_ ?_ t ht hid
      · intro s _ _ _
        exact ⟨rfl, rfl⟩
      · intro s _ hp hsid
        rw [hsid] at hp
        simp at hp
  · decide

def C9WitnessTask : Task :=
  { id := "t1", file_id := "f1", status := TaskStatus.processing, priority := 0,
    retry_count := 0, max_retries := 3, worker_id := none, started_at := none,
    last_heartbeat := none, timeout_seconds := 3600, progress := 0, duration := none,
    segments := none, error := none, created_at := 0, completed_at := none }

theorem C9_update_status_witness :
    C9WitnessTask.status = TaskStatus.processing ∧ C9WitnessTask.error = none :=
  C9_update_status_unconditional.1
    (enqueueOk DB.initial "t1" "f1" 0 3 0) "t1" TaskStatus.processing none 1
    C9WitnessTask (by decide) rfl

/-- A committed `heartbeat(id, p)` leaves every row matching `id` with
`progress = p` and `last_heartbeat = now`. -/
def HeartbeatWritesProgress : Prop :=
  ∀ db id p now, ∀ u ∈ (heartbeat db id p now).tasks,
    u.id = id → u.progress = p ∧ u.last_heartbeat = some now

/-- C10: frame property of `fail`'s requeue phase.  When the requeue UPDATE
hits a row (`id` matches and `retry_count < max_retries`), the updated row
is `failRequeue err t`, which rewrites exactly status, retry_count, error,
worker_id and started_at and keeps progress, last_heartbeat and all other
columns; a later `heartbeat` is what overwrites the carried progress. -/
theorem C10_fail_requeue_frame (db : DB) (task_id err : String) (now : Int) (t : Task)
    (hmem : t ∈ db.tasks) (hid : t.id = task_id) (hrc : t.retry_count < t.max_retries) :
    failRequeue err t ∈ (fail db task_id err true now).tasks ∧
    (failRequeue err t).progress = t.progress ∧
    (failRequeue err t).last_heartbeat = t.last_heartbeat ∧
    (failRequeue err t).duration = t.duration ∧
    (failRequeue err t).segments = t.segments ∧
    (failRequeue err t).completed_at = t.completed_at ∧
    (failRequeue err t).created_at = t.created_at ∧
    (failRequeue err t).priority = t.priority ∧
    (failRequeue err t).max_retries = t.max_retries ∧
    (failRequeue err t).file_id = t.file_id ∧
    (failRequeue err t).id = t.id ∧
    (failRequeue err t).status = TaskStatus.pending ∧
    (failRequeue err t).retry_count = t.retry_count + 1 ∧
    (failRequeue err t).error = some err ∧
    (failRequeue err t).worker_id = none ∧
    (failRequeue err t).started_at = none ∧
    HeartbeatWritesProgress := by
  have hp : failRetryPred task_id t = true := by
    simp [failRetryPred, hid, hrc]
  refine ⟨?_, rfl, rfl, rfl, rfl, rfl, rfl, rfl, rfl, rfl, rfl, rfl, rfl, rfl, rfl, rfl, ?_⟩
  · have hcount : 0 < countWhere (failRetryPred task_id) db.tasks := by
      unfold countWhere
      have : t ∈ db.tasks.filter (failRetryPred task_id) := List.mem_filter.mpr ⟨hmem, hp⟩
      exact List.length_pos.mpr (List.ne_nil_of_mem this)
    unfold fail
    rw [if_pos rfl, if_pos hcount]
    exact mem_updWhere_of_mem hmem hp
  · unfold HeartbeatWritesProgress
    intro db2 id2 p now2 u hu huid
    unfold heartbeat at hu
    refine updWhere_forall (P := fun u => u.id = id2 → u.progress = p ∧ u.last_heartbeat = some now2)
      ?_ ?_ u hu huid
    · intro s _ _ _
      exact ⟨rfl, rfl⟩
    · intro s _ hpid hsid
      rw [hsid] at hpid
      simp at hpid

def C10WitnessDB : DB :=
  heartbeat (dequeue (enqueueOk DB.initial "t1" "f1" 0 3 0) "w1" 1).2 "t1" 30 2

def C10WitnessTask : Task :=
  { id := "t1", file_id := "f1", status := TaskStatus.processing, priority := 0,
    retry_count := 0, max_retries := 3, worker_id := some "w1", started_at := some 1,
    last_heartbeat := some 2, timeout_seconds := 3600, progress := 30, duration := none,
    segments := none, error := none, created_at := 0, completed_at := none }

theorem C10_fail_requeue_frame_witness :
    failRequeue "boom" C10WitnessTask ∈ (fail C10WitnessDB "t1" "boom" true 7).tasks ∧
    (failRequeue "boom" C10WitnessTask).progress = C10WitnessTask.progress ∧
    (failRequeue "boom" C10WitnessTask).last_heartbeat = C10WitnessTask.last_heartbeat ∧
    (failRequeue "boom" C10WitnessTask).duration = C10WitnessTask.duration ∧
    (failRequeue "boom" C10WitnessTask).segments = C10WitnessTask.segments ∧
    (failRequeue "boom" C10WitnessTask).completed_at = C10WitnessTask.completed_at ∧
    (failRequeue "boom" C10WitnessTask).created_at = C10WitnessTask.created_at ∧
    (failRequeue "boom" C10WitnessTask).priority = C10WitnessTask.priority ∧
    (failRequeue "boom" C10WitnessTask).max_retries = C10WitnessTask.max_retries ∧
    (failRequeue "boom" C10WitnessTask).file_id = C10WitnessTask.file_id ∧
    (failRequeue "boom" C10WitnessTask).id = C10WitnessTask.id ∧
    (failRequeue "boom" C10WitnessTask).status = TaskStatus.pending ∧
    (failRequeue "boom" C10WitnessTask).retry_count = C10WitnessTask.retry_count + 1 ∧
    (failRequeue "boom" C10WitnessTask).error = some "boom" ∧
    (failRequeue "boom" C10WitnessTask).worker_id = none ∧
    (failRequeue "boom" C10WitnessTask).started_at = none ∧
    HeartbeatWritesProgress :=
  C10_fail_requeue_frame C10WitnessDB "t1" "boom" 7 C10WitnessTask
    (by decide) rfl (by decide)
